import Mathlib

/-!
Shallow embedding of the Valetudo timer scheduling engine
(`src/backend/lib/scheduler/Scheduler.js`).

Times are epoch milliseconds, modelled as `Int` (JS numbers are exact on
this range).  `evaluateTimers` is modelled as a pure function from the
inputs it reads (NTP client state, the `embedded` config flag, the timer
definition store, the current time `now`, and the watermark
`nextScheduledCheckTime`) to the new watermark together with the list of
per-minute evaluations it performed.  `executeTimer` is modelled as a pure
function from a timer definition to the ordered trace of device operations
it runs plus an outcome; device-operation failure is modelled by an oracle
`fail : DeviceOp → Bool` (`fail op = true` means the corresponding
`run()` call rejects).  The `.catch` attached at the dispatch site
(Scheduler.js line 79) is modelled by recording each dispatched timer's
outcome in the tick's record instead of letting it escape the loop.
-/

namespace Scheduler

/-- MS_PER_MIN constant from Scheduler.js: `60 * 1000`. -/
def MS_PER_MIN : Int := 60 * 1000

/-- State of the NTP client as observed by the scheduler: the code tests
`state instanceof ValetudoNTPClientSyncedState` and
`state instanceof ValetudoNTPClientDisabledState`; every other state class
is collapsed into `other`. -/
inductive NTPClientState where
  | synced
  | disabled
  | other
deriving DecidableEq, Repr

/-- Terminal action type tag of a timer definition
(`timerDefinition.action.type`).  The two recognized tags are the cases of
the `switch` in `executeTimer`; `other s` stands for any unrecognized tag
string (the switch's fall-through). -/
inductive TimerActionType where
  | fullCleanup
  | segmentCleanup
  | other (tag : String)
deriving DecidableEq, Repr

/-- Parameters read from `timerDefinition.action?.params` via optional
chaining: each field is `undefined` (`none`) when absent. -/
structure TimerActionParams where
  segment_ids : Option (List Int) := none
  iterations : Option Int := none
  custom_order : Option Bool := none
deriving DecidableEq, Repr

/-- The `action` field of a timer definition: a type tag plus parameters. -/
structure TimerActionDef where
  type : TimerActionType
  params : Option TimerActionParams := none
deriving DecidableEq, Repr

/-- Pre-action type tag (`timerPreActionDefinition.type`).  The three
recognized tags are the cases of the inner `switch` in `executeTimer`;
`other s` stands for any unrecognized tag string. -/
inductive PreActionType where
  | fanSpeedControl
  | waterUsageControl
  | operationModeControl
  | other (tag : String)
deriving DecidableEq, Repr

/-- Parameters of a pre-action entry: the code reads
`timerPreActionDefinition.params.value`; `value = none` models an
`undefined` value field. -/
structure PreActionParams where
  value : Option Int := none
deriving DecidableEq, Repr

/-- One entry of `timerDefinition.pre_actions`. -/
structure PreActionDef where
  type : PreActionType
  params : PreActionParams := {}
deriving DecidableEq, Repr

/-- A timer definition as read from the configuration store
(`config.get("timers")` values).  `pre_actions = none` models the field
being absent or not an array (the code guards with
`Array.isArray(timerDefinition.pre_actions)`); `action = none` models an
absent `action` field (the code reads it with optional chaining,
`timerDefinition.action?.type`). -/
structure TimerDefinition where
  id : String
  enabled : Bool
  dow : List Int
  hour : Int
  minute : Int
  action : Option TimerActionDef
  pre_actions : Option (List PreActionDef) := none
deriving DecidableEq, Repr

/-- A device operation: the single asynchronous `run()` call of a
constructed pre-action handler or terminal-action handler.  The handler is
determined by the definition it was constructed from, so the operation is
identified by that definition. -/
inductive DeviceOp where
  | preRun (p : PreActionDef)
  | actionRun (a : TimerActionDef)
deriving DecidableEq, Repr

/-- Outcome of one call to `executeTimer` (the async function's promise):
`warnedUnknownAction` — the action tag was present but unrecognized,
`Logger.warn` was called and the function returned;
`threwOnAbsentAction` — the action field was absent, so evaluating
`timerDefinition.action.type` in the warn-message argument threw a
`TypeError` (rejecting the promise) before any warning was recorded;
`warnedUnknownPreAction` — some pre-action tag was unrecognized,
`Logger.warn` was called and the function returned;
`deviceFailure` — some `run()` call rejected;
`completed` — every `run()` call resolved. -/
inductive TimerExecOutcome where
  | warnedUnknownAction (tag : TimerActionType)
  | threwOnAbsentAction
  | warnedUnknownPreAction (tag : PreActionType)
  | deviceFailure
  | completed
deriving DecidableEq, Repr

/-- Whether the terminal-action `switch` in `executeTimer` resolves the tag
to a handler (leaves `action` defined). -/
def actionResolvable : TimerActionType → Bool
  | .other _ => false
  | _ => true

/-- Whether the pre-action `switch` in `executeTimer` resolves the tag to a
handler (leaves `preAction` defined). -/
def preActionResolvable : PreActionType → Bool
  | .other _ => false
  | _ => true

/-- The validation loop over `timerDefinition.pre_actions`: resolve each
entry in order; on the first entry whose tag is unrecognized, warn and
return (`.error` carries the offending tag).  Handlers constructed from
valid entries before the failure are discarded along with the early
return. -/
def resolvePreActions : List PreActionDef → Except PreActionType (List PreActionDef)
  | [] => .ok []
  | p :: rest =>
    if preActionResolvable p.type then
      match resolvePreActions rest with
      | .ok l => .ok (p :: l)
      | .error e => .error e
    else
      .error p.type

/-- Run a list of device operations sequentially, each awaited to
completion before the next starts, stopping at the first one whose `run()`
rejects.  Returns the trace of operations actually started (the failing
one included) and whether all of them succeeded. -/
def runOps (fail : DeviceOp → Bool) : List DeviceOp → List DeviceOp × Bool
  | [] => ([], true)
  | op :: rest =>
    if fail op then
      ([op], false)
    else
      let r := runOps fail rest
      (op :: r.1, r.2)

/-- Model of `Scheduler.executeTimer` (Scheduler.js lines 92–163): resolve
the terminal action (absent field ⇒ the warn-message expression
`timerDefinition.action.type` throws; unrecognized tag ⇒ warn and return),
then validate every pre-action before running any (two-pass), then run the
pre-actions in listed order followed by the terminal action, stopping at
the first rejected `run()`.  Returns the trace of device operations
started, in order, and the outcome. -/
def executeTimer (fail : DeviceOp → Bool) (td : TimerDefinition) :
    List DeviceOp × TimerExecOutcome :=
  match td.action with
  | none => ([], .threwOnAbsentAction)
  | some a =>
    if actionResolvable a.type then
      match resolvePreActions (td.pre_actions.getD []) with
      | .error t => ([], .warnedUnknownPreAction t)
      | .ok pres =>
        let pr := runOps fail (pres.map DeviceOp.preRun)
        if pr.2 then
          (pr.1 ++ [DeviceOp.actionRun a],
           if fail (DeviceOp.actionRun a) then .deviceFailure else .completed)
        else
          (pr.1, .deviceFailure)
    else
      ([], .warnedUnknownAction a.type)

/-- The fields the drain loop derives from the check instant
(`checkDate.getUTCDay()`, `getUTCHours()`, `getUTCMinutes()`). -/
structure CheckTime where
  dow : Int
  hour : Int
  minute : Int
deriving DecidableEq, Repr

/-- UTC field extraction from an epoch-millisecond instant, as performed by
`new Date(t).getUTCDay() / getUTCHours() / getUTCMinutes()`: Unix time has
no leap seconds, so minutes, hours and days are uniform; the epoch
(1970-01-01) was a Thursday, day-of-week 4.  `Int.ediv`/`Int.emod` (floor
division with nonnegative remainder, the divisor being positive) match the
calendar semantics of the JS accessors for either sign of `t`. -/
def checkTimeOf (t : Int) : CheckTime :=
  { dow := (Int.ediv t 86400000 + 4).emod 7
    hour := (Int.ediv t 3600000).emod 24
    minute := (Int.ediv t 60000).emod 60 }

/-- The match predicate of the drain loop (Scheduler.js lines 70–75):
`timerDefinition.enabled === true && timerDefinition.dow.includes(checkTime.dow)
&& timerDefinition.hour === checkTime.hour && timerDefinition.minute === checkTime.minute`. -/
def timerMatches (ct : CheckTime) (td : TimerDefinition) : Bool :=
  td.enabled == true && td.dow.contains ct.dow &&
    td.hour == ct.hour && td.minute == ct.minute

/-- Record of one dispatched timer execution: the timer definition together
with the device-operation trace and outcome of its pipeline.  The `.catch`
attached at the dispatch site keeps any failure inside this record. -/
structure DispatchRecord where
  timer : TimerDefinition
  trace : List DeviceOp
  outcome : TimerExecOutcome
deriving DecidableEq, Repr

/-- Record of one iteration of the drain loop: the check instant and the
executions dispatched for the timers matching that minute. -/
structure TickEval where
  time : Int
  dispatches : List DispatchRecord
deriving DecidableEq, Repr

/-- One iteration of the drain loop body at check instant `t`: derive the
UTC fields, scan every timer definition, and dispatch `executeTimer` for
each match (fire-and-forget, rejection caught per timer). -/
def evalMinute (fail : DeviceOp → Bool) (timers : List TimerDefinition)
    (t : Int) : TickEval :=
  let ct := checkTimeOf t
  { time := t
    dispatches := (timers.filter (fun td => timerMatches ct td)).map (fun td =>
      { timer := td
        trace := (executeTimer fail td).1
        outcome := (executeTimer fail td).2 }) }

/-- The check instants visited by the drain loop started at watermark `wm`
with current time `now`: `wm, wm + 60000, …`, up to but excluding `now`. -/
def minuteInstants (now wm : Int) : List Int :=
  if wm < now then wm :: minuteInstants now (wm + MS_PER_MIN) else []
termination_by (now - wm).toNat
decreasing_by simp [MS_PER_MIN]; omega

/-- The drain loop of `evaluateTimers` (Scheduler.js lines 61–85):
`while (nextScheduledCheckTime < nowTime) { …; nextScheduledCheckTime += MS_PER_MIN }`.
Returns the per-minute evaluations in order and the final watermark. -/
def drainLoop (fail : DeviceOp → Bool) (timers : List TimerDefinition)
    (now wm : Int) : List TickEval × Int :=
  if wm < now then
    let r := drainLoop fail timers now (wm + MS_PER_MIN)
    (evalMinute fail timers wm :: r.1, r.2)
  else
    ([], wm)
termination_by (now - wm).toNat
decreasing_by simp [MS_PER_MIN]; omega

/-- Watermark (re)derivation (Scheduler.js lines 52–54): if
`nextScheduledCheckTime` is `null`, or in the future, or more than 60
minutes behind `now`, reset it to `now - MS_PER_MIN`; otherwise keep it. -/
def deriveWatermark (wm : Option Int) (now : Int) : Int :=
  match wm with
  | none => now - MS_PER_MIN
  | some w => if w > now ∨ w < now - 60 * MS_PER_MIN then now - MS_PER_MIN else w

/-- The sync gate condition (Scheduler.js lines 34–39): the tick is
aborted when the NTP client state is neither synced nor disabled AND the
`embedded` config flag is `true`. -/
def syncGateBlocks (ntp : NTPClientState) (embedded : Bool) : Bool :=
  !(ntp == .synced || ntp == .disabled) && embedded == true

/-- The part of `evaluateTimers` after the sync gate: read the timers and
`now`, (re)derive the watermark, and drain.  Returns the per-minute
evaluations and the new value of `nextScheduledCheckTime`. -/
def evaluateTimersPostGate (fail : DeviceOp → Bool)
    (timers : List TimerDefinition) (now : Int) (wm : Option Int) :
    List TickEval × Option Int :=
  let r := drainLoop fail timers now (deriveWatermark wm now)
  (r.1, some r.2)

/-- Model of `Scheduler.evaluateTimers` (Scheduler.js lines 33–86) as a
function of everything one tick reads: on a blocked tick it returns
immediately with no evaluations and the watermark untouched; otherwise it
derives the watermark and drains to the present. -/
def evaluateTimers (fail : DeviceOp → Bool) (ntp : NTPClientState)
    (embedded : Bool) (timers : List TimerDefinition) (now : Int)
    (wm : Option Int) : List TickEval × Option Int :=
  if syncGateBlocks ntp embedded then
    ([], wm)
  else
    evaluateTimersPostGate fail timers now wm

/-- Number of iterations the drain loop performs from watermark `wm`:
`⌈(now - wm)/60000⌉` when `wm < now`, else `0`. -/
def iterCount (now wm : Int) : Nat :=
  ((now - wm).toNat + 59999) / 60000

/-! Concrete fixture values used by witnesses and counterexamples. -/

/-- A terminal action definition with the FULL_CLEANUP tag. -/
def actFull : TimerActionDef := { type := .fullCleanup }

/-- A terminal action definition with the SEGMENT_CLEANUP tag. -/
def actSeg : TimerActionDef := { type := .segmentCleanup }

/-- A terminal action definition with an unrecognized tag. -/
def actBogus : TimerActionDef := { type := .other "bogus" }

/-- A FAN_SPEED_CONTROL pre-action entry. -/
def preFan : PreActionDef := { type := .fanSpeedControl }

/-- A WATER_USAGE_CONTROL pre-action entry. -/
def preWater : PreActionDef := { type := .waterUsageControl }

/-- An OPERATION_MODE_CONTROL pre-action entry. -/
def preOpMode : PreActionDef := { type := .operationModeControl }

/-- A pre-action entry with an unrecognized tag. -/
def preBogus : PreActionDef := { type := .other "bogus" }

/-- A timer whose pre-action list holds one invalid entry between two
valid ones. -/
def timerT4 : TimerDefinition :=
  { id := "t4", enabled := true, dow := [1], hour := 14, minute := 30,
    action := some actFull, pre_actions := some [preFan, preBogus, preWater] }

/-- An enabled timer scheduled for Thursday 00:00 UTC. -/
def timerT5on : TimerDefinition :=
  { id := "t5", enabled := true, dow := [4], hour := 0, minute := 0,
    action := some actFull }

/-- A disabled timer scheduled for Thursday 00:00 UTC. -/
def timerT5off : TimerDefinition :=
  { id := "t5d", enabled := false, dow := [4], hour := 0, minute := 0,
    action := some actFull }

/-- A timer with three valid pre-actions and a valid terminal action. -/
def timerT6 : TimerDefinition :=
  { id := "t6", enabled := true, dow := [1], hour := 14, minute := 30,
    action := some actFull,
    pre_actions := some [preFan, preWater, preOpMode] }

/-- An enabled full-cleanup timer matching Thursday 00:00 UTC. -/
def timerA : TimerDefinition :=
  { id := "a", enabled := true, dow := [4], hour := 0, minute := 0,
    action := some actFull }

/-- An enabled segment-cleanup timer matching Thursday 00:00 UTC. -/
def timerB : TimerDefinition :=
  { id := "b", enabled := true, dow := [4], hour := 0, minute := 0,
    action := some actSeg }

/-- A timer whose `action` field is absent. -/
def timerNoAction : TimerDefinition :=
  { id := "t8", enabled := true, dow := [4], hour := 0, minute := 0,
    action := none, pre_actions := some [preFan] }

/-- A timer whose action tag is unrecognized. -/
def timerBadAction : TimerDefinition :=
  { id := "t8b", enabled := true, dow := [4], hour := 0, minute := 0,
    action := some actBogus, pre_actions := some [preFan] }

/-- A timer with a valid action and no `pre_actions` field. -/
def timerT10 : TimerDefinition :=
  { id := "t10", enabled := true, dow := [4], hour := 0, minute := 0,
    action := some actFull, pre_actions := none }

/-- A failure oracle on which every device operation succeeds. -/
def noFailure : DeviceOp → Bool := fun _ => false

/-- A failure oracle on which exactly the water-usage pre-action's `run()`
rejects. -/
def failWater : DeviceOp → Bool := fun op => op == DeviceOp.preRun preWater

/-- A failure oracle on which exactly the full-cleanup action's `run()`
rejects. -/
def failFullCleanup : DeviceOp → Bool :=
  fun op => op == DeviceOp.actionRun actFull

/-! Helper lemmas about the drain loop. -/

theorem minuteInstants_of_not_lt {now wm : Int} (h : ¬ wm < now) :
    minuteInstants now wm = [] := by
  rw [minuteInstants]
  simp [h]

theorem minuteInstants_of_lt {now wm : Int} (h : wm < now) :
    minuteInstants now wm = wm :: minuteInstants now (wm + MS_PER_MIN) := by
  rw [minuteInstants]
  simp [h]

theorem iterCount_of_not_lt {now wm : Int} (h : ¬ wm < now) :
    iterCount now wm = 0 := by
  unfold iterCount
  omega

theorem iterCount_of_lt {now wm : Int} (h : wm < now) :
    iterCount now wm = iterCount now (wm + MS_PER_MIN) + 1 := by
  unfold iterCount
  simp only [MS_PER_MIN]
  omega

theorem minuteInstants_closedForm (now wm : Int) :
    minuteInstants now wm =
      (List.range (iterCount now wm)).map (fun i : Nat => wm + MS_PER_MIN * (i : Int)) := by
  suffices H : ∀ (k : Nat) (wm : Int), iterCount now wm = k →
      minuteInstants now wm =
        (List.range (iterCount now wm)).map (fun i : Nat => wm + MS_PER_MIN * (i : Int)) by
    exact H (iterCount now wm) wm rfl
  intro k
  induction k with
  | zero =>
    intro wm hk
    have h : ¬ wm < now := by
      by_contra h
      rw [iterCount_of_lt h] at hk
      omega
    rw [minuteInstants_of_not_lt h, hk]
    simp
  | succ k ih =>
    intro wm hk
    have h : wm < now := by
      by_contra h
      rw [iterCount_of_not_lt h] at hk
      omega
    have hk' : iterCount now (wm + MS_PER_MIN) = k := by
      rw [iterCount_of_lt h] at hk
      omega
    rw [minuteInstants_of_lt h, ih (wm + MS_PER_MIN) hk', hk', iterCount_of_lt h, hk',
      List.range_succ_eq_map]
    simp only [List.map_cons, List.map_map]
    refine congrArg₂ _ (by ring) (List.map_congr_left ?_)
    intro i _
    simp only [Function.comp]
    push_cast
    ring

theorem minuteInstants_length (now wm : Int) :
    (minuteInstants now wm).length = iterCount now wm := by
  rw [minuteInstants_closedForm]
  simp

theorem minuteInstants_mem_bounds {now wm t : Int}
    (h : t ∈ minuteInstants now wm) : wm ≤ t ∧ t < now := by
  rw [minuteInstants_closedForm] at h
  simp only [List.mem_map, List.mem_range] at h
  obtain ⟨i, hi, rfl⟩ := h
  unfold iterCount at hi
  simp only [MS_PER_MIN]
  omega

theorem minuteInstants_pairwise (now wm : Int) :
    List.Pairwise (· < ·) (minuteInstants now wm) := by
  rw [minuteInstants_closedForm]
  refine (List.pairwise_lt_range _).map _ ?_
  intro a b hab
  simp only [MS_PER_MIN]
  omega

theorem drainLoop_eq (fail : DeviceOp → Bool) (timers : List TimerDefinition)
    (now wm : Int) :
    drainLoop fail timers now wm =
      ((minuteInstants now wm).map (evalMinute fail timers),
       wm + MS_PER_MIN * (minuteInstants now wm).length) := by
  suffices H : ∀ (k : Nat) (wm : Int), iterCount now wm = k →
      drainLoop fail timers now wm =
        ((minuteInstants now wm).map (evalMinute fail timers),
         wm + MS_PER_MIN * (minuteInstants now wm).length) by
    exact H (iterCount now wm) wm rfl
  intro k
  induction k with
  | zero =>
    intro wm hk
    have h : ¬ wm < now := by
      by_contra h
      rw [iterCount_of_lt h] at hk
      omega
    rw [drainLoop, minuteInstants_of_not_lt h]
    simp [h]
  | succ k ih =>
    intro wm hk
    have h : wm < now := by
      by_contra h
      rw [iterCount_of_not_lt h] at hk
      omega
    have hk' : iterCount now (wm + MS_PER_MIN) = k := by
      rw [iterCount_of_lt h] at hk
      omega
    rw [drainLoop]
    simp only [h, if_true, ih (wm + MS_PER_MIN) hk', minuteInstants_of_lt h]
    refine congrArg₂ _ rfl ?_
    simp only [List.length_cons]
    push_cast
    ring

/-! Helper lemmas about the execution pipeline. -/

theorem runOps_trace_le (fail : DeviceOp → Bool) (l : List DeviceOp) :
    (runOps fail l).1 <+: l := by
  induction l with
  | nil => simp [runOps]
  | cons op rest ih =>
    rw [runOps]
    cases hf : fail op with
    | true =>
      simp only [if_true]
      exact ⟨rest, rfl⟩
    | false =>
      simp only [Bool.false_eq_true, if_false]
      obtain ⟨t, ht⟩ := ih
      exact ⟨t, by simp [ht]⟩

theorem runOps_ok_iff (fail : DeviceOp → Bool) (l : List DeviceOp) :
    (runOps fail l).2 = true ↔ ∀ op ∈ l, fail op = false := by
  induction l with
  | nil => simp [runOps]
  | cons op rest ih =>
    rw [runOps]
    cases hf : fail op with
    | true => simp [hf]
    | false => simp [hf, ih]

theorem runOps_of_all_ok (fail : DeviceOp → Bool) (l : List DeviceOp)
    (h : ∀ op ∈ l, fail op = false) : runOps fail l = (l, true) := by
  induction l with
  | nil => simp [runOps]
  | cons op rest ih =>
    rw [runOps, h op (by simp)]
    simp only [Bool.false_eq_true, if_false]
    rw [ih (fun op hop => h op (by simp [hop]))]

theorem runOps_append_one (fail : DeviceOp → Bool) (l : List DeviceOp)
    (a : DeviceOp) :
    (runOps fail (l ++ [a])).1 =
      if (runOps fail l).2 then (runOps fail l).1 ++ [a]
      else (runOps fail l).1 := by
  induction l with
  | nil =>
    simp only [List.nil_append, runOps]
    cases hf : fail a <;> simp
  | cons op rest ih =>
    rw [List.cons_append, runOps, runOps]
    cases hf : fail op with
    | true => simp
    | false =>
      simp only [Bool.false_eq_true, if_false]
      cases hr : (runOps fail rest).2 with
      | true => simp [hr] at ih ⊢; rw [ih]
      | false => simp [hr] at ih ⊢; rw [ih]

theorem resolvePreActions_err_of_mem {ps : List PreActionDef}
    {p : PreActionDef} (hp : p ∈ ps)
    (hbad : preActionResolvable p.type = false) :
    ∃ e, resolvePreActions ps = .error e := by
  induction ps with
  | nil => simp at hp
  | cons q rest ih =>
    rw [resolvePreActions]
    cases hq : preActionResolvable q.type with
    | false =>
      simp only [Bool.false_eq_true, if_false]
      exact ⟨q.type, rfl⟩
    | true =>
      simp only [if_true]
      rcases List.mem_cons.mp hp with rfl | hp'
      · rw [hbad] at hq
        simp at hq
      · obtain ⟨e, he⟩ := ih hp'
        rw [he]
        exact ⟨e, rfl⟩

/-! Helper lemmas about the tick entry points. -/

theorem deriveWatermark_keep {now w : Int} (h1 : w ≤ now)
    (h2 : now - w ≤ 60 * MS_PER_MIN) :
    deriveWatermark (some w) now = w := by
  rw [deriveWatermark, if_neg]
  push_neg
  simp only [MS_PER_MIN] at *
  omega

theorem evaluateTimers_blocked {ntp : NTPClientState} {emb : Bool}
    (h : syncGateBlocks ntp emb = true) (fail : DeviceOp → Bool)
    (timers : List TimerDefinition) (now : Int) (wm : Option Int) :
    evaluateTimers fail ntp emb timers now wm = ([], wm) := by
  rw [evaluateTimers, if_pos h]

theorem evaluateTimers_open {ntp : NTPClientState} {emb : Bool}
    (h : syncGateBlocks ntp emb = false) (fail : DeviceOp → Bool)
    (timers : List TimerDefinition) (now : Int) (wm : Option Int) :
    evaluateTimers fail ntp emb timers now wm =
      evaluateTimersPostGate fail timers now wm := by
  rw [evaluateTimers, if_neg (by simp [h])]

theorem evaluateTimersPostGate_eq (fail : DeviceOp → Bool)
    (timers : List TimerDefinition) (now : Int) (wm : Option Int) :
    evaluateTimersPostGate fail timers now wm =
      ((minuteInstants now (deriveWatermark wm now)).map (evalMinute fail timers),
       some (deriveWatermark wm now +
         MS_PER_MIN * (minuteInstants now (deriveWatermark wm now)).length)) := by
  rw [evaluateTimersPostGate, drainLoop_eq]

theorem evalMinute_time (fail : DeviceOp → Bool)
    (timers : List TimerDefinition) (t : Int) :
    (evalMinute fail timers t).time = t := rfl

theorem evaluateTimers_times {ntp : NTPClientState} {emb : Bool}
    (h : syncGateBlocks ntp emb = false) (fail : DeviceOp → Bool)
    (timers : List TimerDefinition) (now : Int) (wm : Option Int) :
    (evaluateTimers fail ntp emb timers now wm).1.map TickEval.time =
      minuteInstants now (deriveWatermark wm now) := by
  rw [evaluateTimers_open h, evaluateTimersPostGate_eq]
  simp only [List.map_map]
  exact List.map_congr_left (fun t _ => rfl) |>.trans (List.map_id _)

theorem evalSyncedEmpty (fail : DeviceOp → Bool) :
    evaluateTimers fail .synced true [] 60001 none =
      ([{ time := 1, dispatches := [] }], some 60001) := by
  rw [evaluateTimers_open (by decide), evaluateTimersPostGate_eq]
  have hd : deriveWatermark none 60001 = 1 := by
    rw [deriveWatermark]
    decide
  have hmi : minuteInstants 60001 (1 : Int) = [1] := by
    rw [minuteInstants_closedForm]
    decide
  rw [hd, hmi]
  simp [evalMinute, MS_PER_MIN]

/-- C1: on a tick that passes the sync gate with a valid watermark `w`
(non-null, not in the future, at most 60 minutes behind `now`), the drain
loop evaluates exactly the minute instants `w, w + 60000, …`, up to but
excluding `now`, each exactly once and in strictly increasing order, and
advances the watermark by 60000 per iteration; when the elapsed time is
`60000·(k+1)` (`k` extra minutes beyond the nominal interval) it performs
exactly `k + 1` iterations, and it performs exactly zero iterations when
the watermark is not strictly less than `now`. -/
theorem claim_C1_drain_loop_instants (fail : DeviceOp → Bool)
    (ntp : NTPClientState) (emb : Bool) (timers : List TimerDefinition)
    (now w : Int) (hgate : syncGateBlocks ntp emb = false)
    (h1 : w ≤ now) (h2 : now - w ≤ 60 * MS_PER_MIN) :
    ((evaluateTimers fail ntp emb timers now (some w)).1.map TickEval.time =
        (List.range (iterCount now w)).map (fun i : Nat => w + MS_PER_MIN * (i : Int)))
    ∧ List.Pairwise (· < ·)
        ((evaluateTimers fail ntp emb timers now (some w)).1.map TickEval.time)
    ∧ ((evaluateTimers fail ntp emb timers now (some w)).1.map TickEval.time).Nodup
    ∧ (∀ t ∈ (evaluateTimers fail ntp emb timers now (some w)).1.map TickEval.time,
        w ≤ t ∧ t < now)
    ∧ (evaluateTimers fail ntp emb timers now (some w)).2 =
        some (w + MS_PER_MIN *
          ((evaluateTimers fail ntp emb timers now (some w)).1.length : Int))
    ∧ (∀ k : Nat, now - w = MS_PER_MIN * ((k : Int) + 1) →
        (evaluateTimers fail ntp emb timers now (some w)).1.length = k + 1)
    ∧ (¬ w < now → evaluateTimers fail ntp emb timers now (some w) = ([], some w)) := by
  have hd : deriveWatermark (some w) now = w := deriveWatermark_keep h1 h2
  have ht : (evaluateTimers fail ntp emb timers now (some w)).1.map TickEval.time =
      minuteInstants now w := by
    rw [evaluateTimers_times hgate, hd]
  have he : evaluateTimers fail ntp emb timers now (some w) =
      ((minuteInstants now w).map (evalMinute fail timers),
       some (w + MS_PER_MIN * ((minuteInstants now w).length : Int))) := by
    rw [evaluateTimers_open hgate, evaluateTimersPostGate_eq, hd]
  have hlen : (evaluateTimers fail ntp emb timers now (some w)).1.length =
      iterCount now w := by
    rw [he]
    simp [minuteInstants_length]
  refine ⟨?_, ?_, ?_, ?_, ?_, ?_, ?_⟩
  · rw [ht]
    exact minuteInstants_closedForm now w
  · rw [ht]
    exact minuteInstants_pairwise now w
  · rw [ht]
    exact (minuteInstants_pairwise now w).imp (fun h => ne_of_lt h)
  · intro t htm
    rw [ht] at htm
    exact minuteInstants_mem_bounds htm
  · rw [he]
    simp
  · intro k hk
    rw [hlen]
    unfold iterCount
    simp only [MS_PER_MIN] at hk ⊢
    omega
  · intro hnl
    rw [he, minuteInstants_of_not_lt hnl]
    simp

theorem claim_C1_drain_loop_instants_witness :
    syncGateBlocks .synced true = false ∧ (60500 : Int) ≤ 180500 ∧
    (180500 : Int) - 60500 ≤ 60 * MS_PER_MIN ∧
    ((evaluateTimers (fun _ => false) .synced true [] 180500
        (some 60500)).1.map TickEval.time = [60500, 120500]) ∧
    (evaluateTimers (fun _ => false) .synced true [] 180500
        (some 60500)).1.length = 1 + 1 ∧
    (evaluateTimers (fun _ => false) .synced true [] 180500
        (some 60500)).2 = some 180500 := by
  have h := claim_C1_drain_loop_instants (fun _ => false) .synced true []
    180500 60500 (by decide) (by decide) (by decide)
  have hlen : (evaluateTimers (fun _ => false) .synced true [] 180500
      (some 60500)).1.length = 1 + 1 :=
    h.2.2.2.2.2.1 1 (by decide)
  refine ⟨by decide, by decide, by decide, ?_, hlen, ?_⟩
  · rw [h.1]
    decide
  · rw [h.2.2.2.2.1, hlen]
    decide

/-- C2: on a tick that passes the sync gate, if the watermark is null,
or strictly greater than `now`, or more than 60 minutes behind `now`, the
watermark used for draining is exactly `now - 60000` (so the tick behaves
exactly as if the watermark had been `now - 60000`); otherwise the
watermark is left unchanged before draining. -/
theorem claim_C2_watermark_rederivation (fail : DeviceOp → Bool)
    (ntp : NTPClientState) (emb : Bool) (timers : List TimerDefinition)
    (now : Int) (wm : Option Int)
    (hgate : syncGateBlocks ntp emb = false) :
    ((wm = none ∨ (∃ w, wm = some w ∧ (now < w ∨ 60 * MS_PER_MIN < now - w))) →
      deriveWatermark wm now = now - MS_PER_MIN ∧
      evaluateTimers fail ntp emb timers now wm =
        evaluateTimers fail ntp emb timers now (some (now - MS_PER_MIN)))
    ∧ (∀ w, wm = some w → w ≤ now → now - w ≤ 60 * MS_PER_MIN →
        deriveWatermark wm now = w) := by
  constructor
  · intro hinv
    have hd : deriveWatermark wm now = now - MS_PER_MIN := by
      rcases hinv with rfl | ⟨w, rfl, hw⟩
      · rfl
      · rw [deriveWatermark, if_pos]
        rcases hw with h | h
        · exact Or.inl h
        · refine Or.inr ?_
          omega
    refine ⟨hd, ?_⟩
    rw [evaluateTimers_open hgate, evaluateTimers_open hgate,
      evaluateTimersPostGate, evaluateTimersPostGate, hd,
      deriveWatermark_keep (by simp only [MS_PER_MIN]; omega)
        (by simp only [MS_PER_MIN]; omega)]
  · intro w hw h1 h2
    rw [hw]
    exact deriveWatermark_keep h1 h2

theorem claim_C2_watermark_rederivation_witness :
    syncGateBlocks .synced true = false ∧
    deriveWatermark none 60001 = 60001 - MS_PER_MIN ∧
    evaluateTimers (fun _ => false) .synced true [] 60001 none =
      evaluateTimers (fun _ => false) .synced true [] 60001
        (some (60001 - MS_PER_MIN)) ∧
    deriveWatermark (some 3600000) 7300000 = 7300000 - MS_PER_MIN ∧
    deriveWatermark (some 60500) 180500 = 60500 := by
  have h1 := (claim_C2_watermark_rederivation (fun _ => false) .synced true []
    60001 none (by decide)).1 (Or.inl rfl)
  have h2 := (claim_C2_watermark_rederivation (fun _ => false) .synced true []
    7300000 (some 3600000) (by decide)).1
    (Or.inr ⟨3600000, rfl, Or.inr (by decide)⟩)
  have h3 := (claim_C2_watermark_rederivation (fun _ => false) .synced true []
    180500 (some 60500) (by decide)).2 60500 rfl (by decide) (by decide)
  exact ⟨by decide, h1.1, h1.2, h2.1, h3⟩

/-- C3: when the NTP client state is neither synced nor disabled and the
`embedded` flag is `true`, `evaluateTimers` returns immediately — no timer
is dispatched and the watermark is left exactly as it was; when `embedded`
is not `true`, the gate never suppresses evaluation. -/
theorem claim_C3_sync_gate (fail : DeviceOp → Bool) (ntp : NTPClientState)
    (emb : Bool) (timers : List TimerDefinition) (now : Int)
    (wm : Option Int) :
    (ntp ≠ .synced → ntp ≠ .disabled → emb = true →
      evaluateTimers fail ntp emb timers now wm = ([], wm))
    ∧ (emb = false →
      evaluateTimers fail ntp emb timers now wm =
        evaluateTimersPostGate fail timers now wm) := by
  constructor
  · intro h1 h2 h3
    refine evaluateTimers_blocked ?_ fail timers now wm
    cases ntp with
    | synced => exact absurd rfl h1
    | disabled => exact absurd rfl h2
    | other => rw [h3]; decide
  · intro h3
    refine evaluateTimers_open ?_ fail timers now wm
    rw [h3, syncGateBlocks]
    simp

theorem claim_C3_sync_gate_witness :
    evaluateTimers (fun _ => false) .other true [] 60001 (some 12345) =
      ([], some 12345) ∧
    evaluateTimers (fun _ => false) .other false [] 3 (some 3) =
      ([], some 3) := by
  have h1 := (claim_C3_sync_gate (fun _ => false) .other true [] 60001
    (some 12345)).1 (by decide) (by decide) rfl
  have h2 := (claim_C3_sync_gate (fun _ => false) .other false [] 3
    (some 3)).2 rfl
  refine ⟨h1, ?_⟩
  rw [h2, evaluateTimersPostGate_eq,
    deriveWatermark_keep (by decide) (by decide),
    minuteInstants_of_not_lt (lt_irrefl 3)]
  simp

/-- C4: if any entry of a timer's pre-action list has an unrecognized type
tag — even if other entries are valid — `executeTimer` runs zero device
operations: no pre-action executes and the terminal action does not
execute, because the validation pass over all pre-actions completes before
any pre-action runs. -/
theorem claim_C4_invalid_pre_action_aborts (fail : DeviceOp → Bool)
    (td : TimerDefinition) (ps : List PreActionDef) (p : PreActionDef)
    (hps : td.pre_actions = some ps) (hp : p ∈ ps)
    (hbad : preActionResolvable p.type = false) :
    (executeTimer fail td).1 = [] := by
  obtain ⟨e, he⟩ := resolvePreActions_err_of_mem hp hbad
  cases ha : td.action with
  | none => simp [executeTimer, ha]
  | some a =>
    cases hr : actionResolvable a.type with
    | false => simp [executeTimer, ha, hr]
    | true => simp [executeTimer, ha, hr, hps, he]

theorem claim_C4_invalid_pre_action_aborts_witness :
    timerT4.pre_actions = some [preFan, preBogus, preWater] ∧
    preBogus ∈ [preFan, preBogus, preWater] ∧
    preActionResolvable preBogus.type = false ∧
    (executeTimer noFailure timerT4).1 = [] :=
  ⟨rfl, by decide, by decide,
   claim_C4_invalid_pre_action_aborts noFailure timerT4
     [preFan, preBogus, preWater] preBogus rfl (by decide) (by decide)⟩

/-- C5: at every evaluated minute, a timer in the store is dispatched if
and only if its `enabled` flag equals `true`, its `dow` set contains the
derived UTC weekday, and its `hour` and `minute` fields equal the derived
UTC fields exactly; in particular a disabled timer is never dispatched,
and every per-minute evaluation produced by `evaluateTimers` is exactly
the evaluation of its minute. -/
theorem claim_C5_match_predicate (fail : DeviceOp → Bool)
    (timers : List TimerDefinition) (t : Int) (td : TimerDefinition)
    (ntp : NTPClientState) (emb : Bool) (now : Int) (wm : Option Int) :
    ((∃ r ∈ (evalMinute fail timers t).dispatches, r.timer = td) ↔
      (td ∈ timers ∧ (td.enabled = true ∧ (checkTimeOf t).dow ∈ td.dow ∧
        td.hour = (checkTimeOf t).hour ∧ td.minute = (checkTimeOf t).minute)))
    ∧ (td.enabled = false →
        ∀ r ∈ (evalMinute fail timers t).dispatches, r.timer ≠ td)
    ∧ (∀ ev ∈ (evaluateTimers fail ntp emb timers now wm).1,
        ev = evalMinute fail timers ev.time) := by
  have hmatch : ∀ td' : TimerDefinition,
      timerMatches (checkTimeOf t) td' = true ↔
        (td'.enabled = true ∧ (checkTimeOf t).dow ∈ td'.dow ∧
          td'.hour = (checkTimeOf t).hour ∧
          td'.minute = (checkTimeOf t).minute) := by
    intro td'
    rw [timerMatches]
    simp [and_assoc]
  have hiff : (∃ r ∈ (evalMinute fail timers t).dispatches, r.timer = td) ↔
      (td ∈ timers ∧ timerMatches (checkTimeOf t) td = true) := by
    simp only [evalMinute, List.mem_map, List.mem_filter]
    constructor
    · rintro ⟨r, ⟨td', ⟨htd', hm⟩, rfl⟩, rfl⟩
      exact ⟨htd', hm⟩
    · rintro ⟨htd, hm⟩
      exact ⟨_, ⟨td, ⟨htd, hm⟩, rfl⟩, rfl⟩
  refine ⟨hiff.trans (by rw [hmatch td]), ?_, ?_⟩
  · intro hen r hr hrt
    have hms := hiff.mp ⟨r, hr, hrt⟩
    rw [hmatch td, hen] at hms
    simp at hms
  · cases hb : syncGateBlocks ntp emb with
    | true =>
      rw [evaluateTimers_blocked hb]
      simp
    | false =>
      rw [evaluateTimers_open hb, evaluateTimersPostGate_eq]
      intro ev hev
      simp only [List.mem_map] at hev
      obtain ⟨t0, _, rfl⟩ := hev
      rfl

theorem claim_C5_match_predicate_witness :
    (∃ r ∈ (evalMinute noFailure [timerT5on] 0).dispatches,
      r.timer = timerT5on) ∧
    (¬ ∃ r ∈ (evalMinute noFailure [timerT5off] 0).dispatches,
      r.timer = timerT5off) := by
  constructor
  · exact (claim_C5_match_predicate noFailure [timerT5on] 0 timerT5on
      .synced true 0 none).1.mpr ⟨by decide, by decide, by decide, by decide⟩
  · intro hex
    obtain ⟨r, hr, hrt⟩ := hex
    exact (claim_C5_match_predicate noFailure [timerT5off] 0 timerT5off
      .synced true 0 none).2.1 (by decide) r hr hrt

/-- C6: for a timer definition that passes validation (action tag
recognized, every pre-action tag recognized), the device operations
executed by `executeTimer` are exactly those of the run-until-first-failure
of the sequence `[pre-action 1, …, pre-action n, terminal action]` in
listed order — hence always a prefix of that sequence, with nothing rolled
back after a failure — and the terminal action's operation runs if and only
if every pre-action's operation succeeds. -/
theorem claim_C6_pipeline_order (fail : DeviceOp → Bool)
    (td : TimerDefinition) (a : TimerActionDef) (pres : List PreActionDef)
    (ha : td.action = some a) (hr : actionResolvable a.type = true)
    (hres : resolvePreActions (td.pre_actions.getD []) = .ok pres) :
    ((executeTimer fail td).1 =
      (runOps fail (pres.map DeviceOp.preRun ++ [DeviceOp.actionRun a])).1)
    ∧ ((executeTimer fail td).1 <+:
        pres.map DeviceOp.preRun ++ [DeviceOp.actionRun a])
    ∧ (DeviceOp.actionRun a ∈ (executeTimer fail td).1 ↔
        ∀ p ∈ pres, fail (DeviceOp.preRun p) = false) := by
  have he : (executeTimer fail td).1 =
      if (runOps fail (pres.map DeviceOp.preRun)).2 then
        (runOps fail (pres.map DeviceOp.preRun)).1 ++ [DeviceOp.actionRun a]
      else (runOps fail (pres.map DeviceOp.preRun)).1 := by
    simp only [executeTimer, ha, hres]
    rw [if_pos (by simp [hr])]
    cases hpr : (runOps fail (pres.map DeviceOp.preRun)).2 <;> simp [hpr]
  have h1 : (executeTimer fail td).1 =
      (runOps fail (pres.map DeviceOp.preRun ++ [DeviceOp.actionRun a])).1 := by
    rw [he, runOps_append_one]
  refine ⟨h1, ?_, ?_⟩
  · rw [h1]
    exact runOps_trace_le fail _
  · rw [he]
    cases hpr : (runOps fail (pres.map DeviceOp.preRun)).2 with
    | true =>
      simp only [if_true]
      constructor
      · intro _ p hp
        exact (runOps_ok_iff fail (pres.map DeviceOp.preRun)).mp hpr _
          (List.mem_map_of_mem _ hp)
      · intro _
        simp
    | false =>
      simp only [Bool.false_eq_true, if_false]
      constructor
      · intro hmem
        exfalso
        have hsub := (runOps_trace_le fail (pres.map DeviceOp.preRun)).subset hmem
        obtain ⟨p, _, hpe⟩ := List.mem_map.mp hsub
        exact DeviceOp.noConfusion hpe
      · intro hok
        have hall : (runOps fail (pres.map DeviceOp.preRun)).2 = true := by
          rw [runOps_ok_iff]
          intro op hop
          obtain ⟨p, hp, rfl⟩ := List.mem_map.mp hop
          exact hok p hp
        rw [hpr] at hall
        exact absurd hall (by simp)

theorem claim_C6_pipeline_order_witness :
    (executeTimer failWater timerT6).1 =
      [DeviceOp.preRun preFan, DeviceOp.preRun preWater] ∧
    ([DeviceOp.preRun preFan, DeviceOp.preRun preWater] : List DeviceOp) <+:
      ([preFan, preWater, preOpMode].map DeviceOp.preRun ++
        [DeviceOp.actionRun actFull]) ∧
    DeviceOp.actionRun actFull ∉
      [DeviceOp.preRun preFan, DeviceOp.preRun preWater] ∧
    (executeTimer noFailure timerT6).1 =
      [preFan, preWater, preOpMode].map DeviceOp.preRun ++
        [DeviceOp.actionRun actFull] := by
  have h := claim_C6_pipeline_order failWater timerT6 actFull
    [preFan, preWater, preOpMode] rfl rfl rfl
  have h0 := claim_C6_pipeline_order noFailure timerT6 actFull
    [preFan, preWater, preOpMode] rfl rfl rfl
  have htr : (executeTimer failWater timerT6).1 =
      [DeviceOp.preRun preFan, DeviceOp.preRun preWater] := by
    rw [h.1]
    decide
  refine ⟨htr, htr ▸ h.2.1, by decide, ?_⟩
  rw [h0.1]
  decide

/-- C7: failures inside one timer's pipeline are contained at that timer's
boundary: the evaluated minute instants, the new watermark, and which
timers are dispatched at each minute are identical under any two
device-failure behaviours, and each dispatched record carries exactly its
own timer's pipeline trace and outcome. -/
theorem claim_C7_failure_containment (fail fail2 : DeviceOp → Bool)
    (ntp : NTPClientState) (emb : Bool) (timers : List TimerDefinition)
    (now : Int) (wm : Option Int) :
    ((evaluateTimers fail ntp emb timers now wm).2 =
      (evaluateTimers fail2 ntp emb timers now wm).2)
    ∧ ((evaluateTimers fail ntp emb timers now wm).1.map TickEval.time =
      (evaluateTimers fail2 ntp emb timers now wm).1.map TickEval.time)
    ∧ ((evaluateTimers fail ntp emb timers now wm).1.map
        (fun ev => ev.dispatches.map DispatchRecord.timer) =
      (evaluateTimers fail2 ntp emb timers now wm).1.map
        (fun ev => ev.dispatches.map DispatchRecord.timer))
    ∧ (∀ ev ∈ (evaluateTimers fail ntp emb timers now wm).1,
        ∀ r ∈ ev.dispatches,
          r.trace = (executeTimer fail r.timer).1 ∧
          r.outcome = (executeTimer fail r.timer).2) := by
  have hdisp : ∀ (f : DeviceOp → Bool) (t : Int),
      (evalMinute f timers t).dispatches.map DispatchRecord.timer =
        timers.filter (fun td => timerMatches (checkTimeOf t) td) := by
    intro f t
    simp only [evalMinute, List.map_map]
    exact (List.map_congr_left (fun td _ => rfl)).trans (List.map_id _)
  have hrec : ∀ (f : DeviceOp → Bool) (t : Int),
      ∀ r ∈ (evalMinute f timers t).dispatches,
        r.trace = (executeTimer f r.timer).1 ∧
        r.outcome = (executeTimer f r.timer).2 := by
    intro f t r hr
    simp only [evalMinute, List.mem_map] at hr
    obtain ⟨td, _, rfl⟩ := hr
    exact ⟨rfl, rfl⟩
  cases hb : syncGateBlocks ntp emb with
  | true =>
    rw [evaluateTimers_blocked hb, evaluateTimers_blocked hb]
    simp
  | false =>
    rw [evaluateTimers_open hb, evaluateTimers_open hb,
      evaluateTimersPostGate_eq, evaluateTimersPostGate_eq]
    refine ⟨by simp, ?_, ?_, ?_⟩
    · simp only [List.map_map]
      exact List.map_congr_left (fun t _ => rfl)
    · simp only [List.map_map]
      refine List.map_congr_left (fun t _ => ?_)
      simp only [Function.comp]
      rw [hdisp fail t, hdisp fail2 t]
    · intro ev hev
      simp only [List.mem_map] at hev
      obtain ⟨t0, _, rfl⟩ := hev
      exact hrec fail t0

theorem claim_C7_failure_containment_witness :
    ((evaluateTimers failFullCleanup .synced true [timerA, timerB]
        60001 none).2 =
      (evaluateTimers noFailure .synced true [timerA, timerB]
        60001 none).2) ∧
    ((evaluateTimers failFullCleanup .synced true [timerA, timerB]
        60001 none).1.map (fun ev => ev.dispatches.map DispatchRecord.timer) =
      (evaluateTimers noFailure .synced true [timerA, timerB]
        60001 none).1.map
          (fun ev => ev.dispatches.map DispatchRecord.timer)) := by
  have h := claim_C7_failure_containment failFullCleanup noFailure
    .synced true [timerA, timerB] 60001 none
  exact ⟨h.1, h.2.2.1⟩

/-- C8: behaviour of `executeTimer` on a timer whose action cannot be
resolved, evaluated at the two relevant inputs.  With an unrecognized
action tag, a warning is recorded and the timer is abandoned with no
device operation.  With an absent `action` field, no device operation runs
either, but no warning is recorded: the function rejects with the
`TypeError` thrown while evaluating `timerDefinition.action.type` in the
warn-message argument (the `switch` reads the field with optional
chaining, the warn message does not) — contradicting the claim that a
warning is recorded in this case. -/
theorem claim_C8_unresolved_action_behaviour :
    executeTimer noFailure timerNoAction =
      ([], TimerExecOutcome.threwOnAbsentAction) ∧
    executeTimer noFailure timerBadAction =
      ([], TimerExecOutcome.warnedUnknownAction (.other "bogus")) :=
  ⟨rfl, rfl⟩

/-- C9 counterexample: a tick that passes the sync gate with a null
watermark at `now = 60001` leaves `nextScheduledCheckTime = 60001`, which
is non-null yet not aligned to a minute boundary (`60001 mod 60000 ≠ 0`):
the reset to `now - 60000` inherits the arbitrary millisecond phase of the
tick. -/
theorem claim_C9_not_aligned_counterexample :
    (evaluateTimers noFailure .synced true [] 60001 none).2 = some 60001 ∧
    ¬ (60001 : Int).emod 60000 = 0 := by
  refine ⟨?_, by decide⟩
  rw [evalSyncedEmpty]

/-- C9 amended: once non-null, `nextScheduledCheckTime` lies at an exact
whole number of 60000 ms steps above the pre-drain watermark derived on
the tick (`now - 60000` after a reset, the previous value otherwise), so
it advances only in whole minute steps from the (re)derivation point —
but it is not in general aligned to `value mod 60000 = 0`. -/
theorem claim_C9_minute_step_invariant (fail : DeviceOp → Bool)
    (ntp : NTPClientState) (emb : Bool) (timers : List TimerDefinition)
    (now : Int) (wm : Option Int)
    (hgate : syncGateBlocks ntp emb = false) :
    (evaluateTimers fail ntp emb timers now wm).2 =
      some (deriveWatermark wm now +
        MS_PER_MIN * ((evaluateTimers fail ntp emb timers now wm).1.length : Int)) := by
  rw [evaluateTimers_open hgate, evaluateTimersPostGate_eq]
  simp

theorem claim_C9_minute_step_invariant_witness :
    syncGateBlocks .synced true = false ∧
    (evaluateTimers noFailure .synced true [] 60001 none).2 =
      some (deriveWatermark none 60001 +
        MS_PER_MIN * ((evaluateTimers noFailure .synced true [] 60001
          none).1.length : Int)) ∧
    (evaluateTimers noFailure .synced true [] 60001 none).2 = some 60001 := by
  refine ⟨by decide,
    claim_C9_minute_step_invariant noFailure .synced true [] 60001 none
      (by decide), ?_⟩
  rw [evalSyncedEmpty]

/-- C10: a timer definition whose `pre_actions` field is absent (or not an
array) is treated as having an empty pre-action list: no warning outcome
occurs, no pre-action device operation runs, and the terminal action's
device operation still executes (succeeding or failing by itself). -/
theorem claim_C10_missing_pre_actions_default (fail : DeviceOp → Bool)
    (td : TimerDefinition) (a : TimerActionDef)
    (hps : td.pre_actions = none) (ha : td.action = some a)
    (hr : actionResolvable a.type = true) :
    executeTimer fail td =
      ([DeviceOp.actionRun a],
       if fail (DeviceOp.actionRun a) then
         TimerExecOutcome.deviceFailure
       else TimerExecOutcome.completed) := by
  simp [executeTimer, ha, hr, hps, resolvePreActions, runOps]

theorem claim_C10_missing_pre_actions_default_witness :
    timerT10.pre_actions = none ∧ timerT10.action = some actFull ∧
    actionResolvable actFull.type = true ∧
    executeTimer noFailure timerT10 =
      ([DeviceOp.actionRun actFull], TimerExecOutcome.completed) := by
  refine ⟨rfl, rfl, by decide, ?_⟩
  have h := claim_C10_missing_pre_actions_default noFailure timerT10 actFull
    rfl rfl (by decide)
  rw [h]
  rfl

end Scheduler
